import Mathlib

/-!
Shallow embedding of the runtime core of `tetra` (src/src/lib.rs): the
fixed-timestep run loop, the double-buffered input state, the event
dispatch, the context builder and the error paths of `run`.

Modelling conventions:

* `std::time::Duration` is exact non-negative integer nanosecond
  arithmetic in Rust; it is embedded as `ℕ` (nanoseconds).  `Instant`
  subtraction of a monotonic clock yields a non-negative `Duration`, so
  an iteration's elapsed wall time is a `ℕ` sample supplied by the
  environment.
* The `time` module (`time::f64_to_duration`, `time::duration_to_f64`)
  is not under src/; both are modelled from the spec as the exact
  seconds/nanoseconds conversions, with `f64` values embedded as exact
  rationals (`ℚ`) and the whole-nanosecond truncation of constructing a
  `Duration` made explicit by `Int.floor`.
* The `input` module (`InputContext`) is not under src/; it is modelled
  from the spec as two total mappings from key identifier to `Bool`
  plus a pointer position.  Key identifiers (`sdl2::keyboard::Keycode`,
  re-exported as `Key`) are embedded as `ℕ`; the SDL keycode of the
  Escape key is 27.
* The `error` module is not under src/; `lib.rs` only constructs
  `TetraError::Sdl(String)`, which is what the model provides, keeping
  the remaining construction failure (`GLDevice::new`) abstract.
* User callbacks receive `&mut Context`; they are embedded as arbitrary
  functions `Context → Context` (update) and `Context → ℚ → Context`
  (draw).  `lag`, `last_time` and the loop's `tick_rate` binding are
  locals of `run`, unreachable from callbacks, exactly as in the source.
* The loop runs while `ctx.running`; the model observes it along a
  finite list of per-iteration environment inputs (elapsed-time sample
  plus the events drained by one full `poll_iter` pass) and produces a
  trace with one record per executed iteration: the number of `update`
  invocations, the interpolation fraction `dt` handed to `draw`, and
  the accumulator value at the end of the iteration.  One trace record
  corresponds to one complete iteration: event drain, pending updates,
  one `draw` call and one `graphics::present`.
-/

/-- Key identifiers: `sdl2::keyboard::Keycode` values, embedded as `ℕ`. -/
def Key : Type := ℕ

instance : DecidableEq Key := fun a b => Nat.decEq a b

/-- The SDL keycode of the Escape key (`SDLK_ESCAPE = 27`). -/
def Key.escapeCode : Key := (27 : ℕ)

/-- Modelled from the spec: the `input` module's `InputContext` is not under
src/.  Per the spec it is a double-buffered record: two mapping snapshots
from key identifier to boolean (`previous`, `current`) plus a 2D pointer
position.  Field names follow the uses in `lib.rs`
(`previous_key_state`, `current_key_state`, `mouse_position`). -/
structure InputContext where
  previous_key_state : Key → Bool
  current_key_state : Key → Bool
  mouse_position : Int × Int

/-- Modelled from the spec: `InputContext::new()` — all keys up, pointer at
the origin. -/
def InputContext.new : InputContext :=
  { previous_key_state := fun _ => false
    current_key_state := fun _ => false
    mouse_position := (0, 0) }

/-- `ctx.input.previous_key_state = ctx.input.current_key_state`
(lib.rs line 140): the per-iteration snapshot.  In Rust this is a `Copy`
assignment of the whole key-state buffer — a value copy, not aliasing —
which the functional embedding renders as replacing the `previous` field
by the current mapping. -/
def InputContext.beginFrame (i : InputContext) : InputContext :=
  { i with previous_key_state := i.current_key_state }

/-- `ctx.input.current_key_state[k as usize] = pressed` (lib.rs lines
154/161).  Modelled from the spec for the missing `input` module: the key
state is a total mapping, so recording any keycode is total — unknown
identifiers simply index their own slot and can never fail. -/
def InputContext.set_key (i : InputContext) (k : Key) (pressed : Bool) : InputContext :=
  { i with current_key_state := Function.update i.current_key_state k pressed }

/-- Modelled from the spec: "is down" query — a pure read of the current
buffer. -/
def InputContext.is_key_down (i : InputContext) (k : Key) : Bool :=
  i.current_key_state k

/-- Modelled from the spec: "was just pressed" query — current ∧ ¬previous. -/
def InputContext.is_key_pressed (i : InputContext) (k : Key) : Bool :=
  i.current_key_state k && !(i.previous_key_state k)

/-- Modelled from the spec: "was just released" query — ¬current ∧ previous. -/
def InputContext.is_key_released (i : InputContext) (k : Key) : Bool :=
  !(i.current_key_state k) && i.previous_key_state k

/-- The error type as used by `lib.rs`: every construction failure it
builds is `TetraError::Sdl(message)` (the `error` module itself is not
under src/). -/
inductive TetraError where
  | Sdl : String → TetraError
deriving DecidableEq

/-- `Context` (lib.rs lines 29-39), restricted to the fields the runtime
core reads or writes.  The `sdl`, `window`, `gl` and `graphics` handles
are opaque external services and carry no state observed by the claims. -/
structure Context where
  input : InputContext
  running : Bool
  quit_on_escape : Bool
  tick_rate : ℚ

/-- Modelled from the spec: `time::f64_to_duration` — seconds (an exact
rational standing for the `f64`) to a `Duration`, i.e. a whole number of
nanoseconds. -/
def f64_to_duration (seconds : ℚ) : ℕ :=
  (⌊seconds * 1000000000⌋).toNat

/-- Modelled from the spec: `time::duration_to_f64` — nanoseconds back to
seconds. -/
def duration_to_f64 (nanos : ℕ) : ℚ :=
  (nanos : ℚ) / 1000000000

/-- The events `run` dispatches on (lib.rs lines 142-167): quit, key down
and key up (each carrying `keycode: Option<Keycode>` — the source only
acts on `Some`), mouse motion, and everything else. -/
inductive Event where
  | quit : Event
  | keyDown : Option Key → Event
  | keyUp : Option Key → Event
  | mouseMotion : Int → Int → Event
  | other : Event
deriving DecidableEq

/-- The `match event` arm of the event-pump loop (lib.rs lines 143-167). -/
def handleEvent (c : Context) (e : Event) : Context :=
  match e with
  | .quit => { c with running := false }
  | .keyDown (some k) =>
      let c := if k = Key.escapeCode ∧ c.quit_on_escape then { c with running := false } else c
      { c with input := c.input.set_key k true }
  | .keyDown none => c
  | .keyUp (some k) => { c with input := c.input.set_key k false }
  | .keyUp none => c
  | .mouseMotion x y => { c with input := { c.input with mouse_position := (x, y) } }
  | .other => c

/-- `for event in events.poll_iter() { match ... }`: one full drain of the
queued events, in order. -/
def processEvents (c : Context) (events : List Event) : Context :=
  events.foldl handleEvent c

/-- Fuel-indexed worker for the simulation phase's `while` loop; see
`simPhase` for the reading of the fuel argument. -/
def simPhaseAux (tick : ℕ) (update : Context → Context) :
    ℕ → Context → ℕ → Context × ℕ × ℕ
  | 0, c, lag => (c, lag, 0)
  | fuel + 1, c, lag =>
    if 0 < tick ∧ tick ≤ lag then
      let r := simPhaseAux tick update fuel (update c) (lag - tick)
      (r.1, r.2.1, r.2.2 + 1)
    else
      (c, lag, 0)

/-- The simulation phase, `while lag >= tick_rate { state.update(ctx);
lag -= tick_rate; }` (lib.rs lines 170-173).  Returns the context after
the updates, the remaining lag, and how many times `update` ran.  Each
pass strips at least one nanosecond off `lag` (the `0 < tick` side of the
guard excludes only the degenerate zero tick on which the source loop
would not terminate; `run` always passes `f64_to_duration(1/60) > 0`), so
`lag` itself bounds the number of passes and drives the structural
recursion; `simPhaseAux_fuel_spec` shows the bound is never the reason
the recursion stops. -/
def simPhase (tick : ℕ) (update : Context → Context) (c : Context) (lag : ℕ) :
    Context × ℕ × ℕ :=
  simPhaseAux tick update lag c lag

/-- The environment's contribution to one loop iteration: the elapsed
wall-time sample (`current_time - last_time`, in nanoseconds) and the
events drained by this iteration's `poll_iter` pass. -/
structure IterInput where
  elapsed : ℕ
  events : List Event
deriving DecidableEq

/-- What one executed iteration did: the elapsed sample it consumed, how
many times it invoked `update`, the accumulator value at the end of the
iteration, and the interpolation fraction passed to `draw`. -/
structure IterResult where
  elapsed : ℕ
  nUpdates : ℕ
  lagEnd : ℕ
  dt : ℚ
deriving DecidableEq

/-- One full iteration of the `while ctx.running` body (lib.rs lines
134-182): accumulate the elapsed sample into `lag`, snapshot the key
state, drain the events, run the pending updates, compute
`dt = time::duration_to_f64(lag) / ctx.tick_rate`, invoke `draw` with it
and present the frame.  Returns the context and lag afterwards, plus the
iteration's trace record. -/
def iteration (tick : ℕ) (update : Context → Context) (draw : Context → ℚ → Context)
    (c : Context) (lag : ℕ) (it : IterInput) : Context × ℕ × IterResult :=
  let lag := lag + it.elapsed
  let c := { c with input := c.input.beginFrame }
  let c := processEvents c it.events
  let s := simPhase tick update c lag
  let c := s.1
  let lag := s.2.1
  let n := s.2.2
  let dt := duration_to_f64 lag / c.tick_rate
  let c := draw c dt
  (c, lag, ⟨it.elapsed, n, lag, dt⟩)

/-- The `while ctx.running` loop (lib.rs lines 134-182), observed along a
finite list of per-iteration environment inputs.  `running` is checked
once at the top of each iteration; once entered, an iteration always runs
to completion.  Returns the final context, the final lag, and one trace
record per executed iteration. -/
def runLoop (tick : ℕ) (update : Context → Context) (draw : Context → ℚ → Context) :
    Context → ℕ → List IterInput → Context × ℕ × List IterResult
  | c, lag, [] => (c, lag, [])
  | c, lag, it :: rest =>
    if c.running then
      let s := iteration tick update draw c lag it
      let r := runLoop tick update draw s.1 s.2.1 rest
      (r.1, r.2.1, s.2.2 :: r.2.2)
    else
      (c, lag, [])

/-- `run` (lib.rs lines 125-185).  Acquiring the platform event pump can
fail (`ctx.sdl.event_pump().map_err(TetraError::Sdl)?`); on failure `run`
returns the error before touching any state.  On success it initializes
`lag = 0`, fixes `tick_rate = time::f64_to_duration(ctx.tick_rate)` once,
sets `ctx.running = true` and enters the loop. -/
def run (update : Context → Context) (draw : Context → ℚ → Context)
    (pump : Except String Unit) (inputs : List IterInput) (c : Context) :
    Except TetraError Unit × Context × List IterResult :=
  match pump with
  | .error e => (.error (.Sdl e), c, [])
  | .ok _ =>
    let tick := f64_to_duration c.tick_rate
    let c := { c with running := true }
    let r := runLoop tick update draw c 0 inputs
    (.ok (), r.1, r.2.2)

/-- `quit` (lib.rs lines 187-189). -/
def quit (c : Context) : Context :=
  { c with running := false }

/-- `ContextBuilder` (lib.rs lines 41-48). -/
structure ContextBuilder where
  title : String
  width : ℕ
  height : ℕ
  scale : ℕ
  vsync : Bool
  quit_on_escape : Bool

/-- `ContextBuilder::new()` (lib.rs lines 51-60). -/
def ContextBuilder.new : ContextBuilder :=
  { title := "Tetra", width := 1280, height := 720, scale := 1,
    vsync := true, quit_on_escape := false }

/-- The outcomes of the external initialization steps `build` performs:
`sdl2::init()`, `sdl.video()`, the window build (each failing with a
string surfaced as `TetraError::Sdl`), and `GLDevice::new` (failing with
a `TetraError` of its own). -/
structure Platform where
  sdl_init : Except String Unit
  video_init : Except String Unit
  window_build : Except String Unit
  gl_new : Except TetraError Unit

/-- `ContextBuilder::build` (lib.rs lines 88-123): chain the platform
initialization steps, propagating the first failure; on success wire up a
`Context` with a fresh `InputContext`, `running = false`,
the configured `quit_on_escape` and `tick_rate = 1.0 / 60.0`. -/
def ContextBuilder.build (b : ContextBuilder) (p : Platform) : Except TetraError Context :=
  match p.sdl_init with
  | .error e => .error (.Sdl e)
  | .ok _ =>
  match p.video_init with
  | .error e => .error (.Sdl e)
  | .ok _ =>
  match p.window_build with
  | .error e => .error (.Sdl e)
  | .ok _ =>
  match p.gl_new with
  | .error e => .error e
  | .ok _ =>
    .ok { input := InputContext.new
          running := false
          quit_on_escape := b.quit_on_escape
          tick_rate := 1 / 60 }

/-- Whether an event is a key event (key down or key up): the events that
touch the key-state buffers. -/
def Event.isKeyEvent : Event → Bool
  | .keyDown _ => true
  | .keyUp _ => true
  | _ => false

/-! ## Helper lemmas about the simulation phase -/

/-- With a positive tick, `lag` nanoseconds of fuel always suffice: the
simulation phase leaves exactly `lag % tick` in the accumulator and runs
`update` exactly `lag / tick` times. -/
theorem simPhaseAux_fuel_spec (tick : ℕ) (u : Context → Context) (htick : 0 < tick) :
    ∀ fuel (c : Context) (lag : ℕ), lag ≤ fuel →
      (simPhaseAux tick u fuel c lag).2.1 = lag % tick ∧
      (simPhaseAux tick u fuel c lag).2.2 = lag / tick := by
  intro fuel
  induction fuel with
  | zero =>
    intro c lag hle
    have hlag : lag = 0 := by omega
    subst hlag
    simp [simPhaseAux]
  | succ fuel ih =>
    intro c lag hle
    by_cases h : tick ≤ lag
    · have hrec := ih (u c) (lag - tick) (by omega)
      simp only [simPhaseAux, if_pos (And.intro htick h)]
      refine ⟨?_, ?_⟩
      · rw [hrec.1, ← Nat.mod_eq_sub_mod h]
      · rw [hrec.2, Nat.div_eq_sub_div htick h]
    · have hfalse : ¬(0 < tick ∧ tick ≤ lag) := fun hc => h hc.2
      simp only [simPhaseAux, if_neg hfalse]
      exact ⟨(Nat.mod_eq_of_lt (by omega)).symm, (Nat.div_eq_of_lt (by omega)).symm⟩

/-- Characterization of `simPhase`: remaining lag is `lag % tick`, the
update count is `lag / tick`. -/
theorem simPhase_spec (tick : ℕ) (u : Context → Context) (htick : 0 < tick)
    (c : Context) (lag : ℕ) :
    (simPhase tick u c lag).2.1 = lag % tick ∧
    (simPhase tick u c lag).2.2 = lag / tick :=
  simPhaseAux_fuel_spec tick u htick lag c lag (Nat.le_refl lag)

/-- Any property preserved by the update callback is preserved by the
whole simulation phase. -/
theorem simPhaseAux_preserves (tick : ℕ) (u : Context → Context) (P : Context → Prop)
    (hu : ∀ x, P x → P (u x)) :
    ∀ fuel (c : Context) (lag : ℕ), P c → P (simPhaseAux tick u fuel c lag).1 := by
  intro fuel
  induction fuel with
  | zero => intro c lag hc; exact hc
  | succ fuel ih =>
    intro c lag hc
    by_cases h : 0 < tick ∧ tick ≤ lag
    · simp only [simPhaseAux, if_pos h]
      exact ih (u c) (lag - tick) (hu c hc)
    · simp only [simPhaseAux, if_neg h]
      exact hc

/-- `simPhase` version of `simPhaseAux_preserves`. -/
theorem simPhase_preserves (tick : ℕ) (u : Context → Context) (P : Context → Prop)
    (hu : ∀ x, P x → P (u x)) (c : Context) (lag : ℕ) (hc : P c) :
    P (simPhase tick u c lag).1 :=
  simPhaseAux_preserves tick u P hu lag c lag hc

/-! ## Helper lemmas about event handling -/

/-- Event dispatch never touches the tick rate. -/
theorem handleEvent_tick_rate (c : Context) (e : Event) :
    (handleEvent c e).tick_rate = c.tick_rate := by
  cases e with
  | quit => rfl
  | keyDown k =>
    cases k with
    | none => rfl
    | some k => simp only [handleEvent]; split <;> rfl
  | keyUp k => cases k with | none => rfl | some k => rfl
  | mouseMotion x y => rfl
  | other => rfl

/-- Event dispatch never sets `running` back to true: every arm either
leaves `running` alone or assigns it `false`. -/
theorem handleEvent_running_false (c : Context) (e : Event) (h : c.running = false) :
    (handleEvent c e).running = false := by
  cases e with
  | quit => rfl
  | keyDown k =>
    cases k with
    | none => exact h
    | some k => simp only [handleEvent]; split <;> simp [h]
  | keyUp k => cases k with | none => exact h | some k => exact h
  | mouseMotion x y => exact h
  | other => exact h

/-- Event dispatch never touches the `previous` key buffer. -/
theorem handleEvent_previous (c : Context) (e : Event) :
    (handleEvent c e).input.previous_key_state = c.input.previous_key_state := by
  cases e with
  | quit => rfl
  | keyDown k =>
    cases k with
    | none => rfl
    | some k => simp only [handleEvent]; split <;> rfl
  | keyUp k => cases k with | none => rfl | some k => rfl
  | mouseMotion x y => rfl
  | other => rfl

/-- Non-key events never touch the `current` key buffer. -/
theorem handleEvent_current_of_not_key (c : Context) (e : Event)
    (h : e.isKeyEvent = false) :
    (handleEvent c e).input.current_key_state = c.input.current_key_state := by
  cases e with
  | quit => rfl
  | keyDown k => simp [Event.isKeyEvent] at h
  | keyUp k => simp [Event.isKeyEvent] at h
  | mouseMotion x y => rfl
  | other => rfl

/-- Any property preserved by single-event dispatch is preserved by a
full drain. -/
theorem processEvents_preserves (P : Context → Prop)
    (h : ∀ c e, P c → P (handleEvent c e)) :
    ∀ (events : List Event) (c : Context), P c → P (processEvents c events) := by
  intro events
  induction events with
  | nil => intro c hc; exact hc
  | cons e rest ih =>
    intro c hc
    exact ih (handleEvent c e) (h c e hc)

/-- A full drain never touches the tick rate. -/
theorem processEvents_tick_rate (c : Context) (events : List Event) :
    (processEvents c events).tick_rate = c.tick_rate :=
  processEvents_preserves (fun x => x.tick_rate = c.tick_rate)
    (fun x e hx => (handleEvent_tick_rate x e).trans hx) events c rfl

/-- A full drain never revives a stopped loop. -/
theorem processEvents_running_false (c : Context) (events : List Event)
    (h : c.running = false) :
    (processEvents c events).running = false :=
  processEvents_preserves (fun x => x.running = false)
    handleEvent_running_false events c h

/-- A full drain never touches the `previous` key buffer. -/
theorem processEvents_previous (c : Context) (events : List Event) :
    (processEvents c events).input.previous_key_state = c.input.previous_key_state :=
  processEvents_preserves (fun x => x.input.previous_key_state = c.input.previous_key_state)
    (fun x e hx => (handleEvent_previous x e).trans hx) events c rfl

/-- A drain containing no key events never touches the `current` key
buffer. -/
theorem processEvents_current_of_no_key (c : Context) (events : List Event)
    (h : ∀ e ∈ events, e.isKeyEvent = false) :
    (processEvents c events).input.current_key_state = c.input.current_key_state := by
  induction events generalizing c with
  | nil => rfl
  | cons e rest ih =>
    have he : e.isKeyEvent = false := h e (List.mem_cons_self e rest)
    have hrest : ∀ x ∈ rest, Event.isKeyEvent x = false :=
      fun x hx => h x (List.mem_cons_of_mem e hx)
    calc (processEvents (handleEvent c e) rest).input.current_key_state
        = (handleEvent c e).input.current_key_state := ih (handleEvent c e) hrest
      _ = c.input.current_key_state := handleEvent_current_of_not_key c e he

/-- Once a quit event appears in the drained batch, the context leaves the
drain with `running = false`, no matter what follows it. -/
theorem processEvents_quit (c : Context) (events : List Event)
    (h : Event.quit ∈ events) :
    (processEvents c events).running = false := by
  induction events generalizing c with
  | nil => cases h
  | cons e rest ih =>
    rcases List.mem_cons.mp h with he | hrest
    · subst he
      exact processEvents_running_false (handleEvent c Event.quit) rest rfl
    · exact ih (handleEvent c e) hrest

/-! ## Helper lemmas about one loop iteration and the loop -/

/-- Bookkeeping of one iteration: it records its elapsed sample, runs
`(lag + elapsed) / tick` updates, and both the returned accumulator and
the recorded one end at `(lag + elapsed) % tick`. -/
theorem iteration_parts (tick : ℕ) (u : Context → Context) (d : Context → ℚ → Context)
    (c : Context) (lag : ℕ) (it : IterInput) (htick : 0 < tick) :
    (iteration tick u d c lag it).2.2.elapsed = it.elapsed ∧
    (iteration tick u d c lag it).2.2.nUpdates = (lag + it.elapsed) / tick ∧
    (iteration tick u d c lag it).2.2.lagEnd = (lag + it.elapsed) % tick ∧
    (iteration tick u d c lag it).2.1 = (lag + it.elapsed) % tick := by
  have hs := simPhase_spec tick u htick
    (processEvents { c with input := c.input.beginFrame } it.events) (lag + it.elapsed)
  exact ⟨rfl, hs.2, hs.1, hs.1⟩

/-- A stopped context never enters the loop body: the trace is empty and
nothing changes. -/
theorem runLoop_stopped (tick : ℕ) (u : Context → Context) (d : Context → ℚ → Context)
    (c : Context) (lag : ℕ) (inputs : List IterInput) (h : c.running = false) :
    runLoop tick u d c lag inputs = (c, lag, []) := by
  cases inputs with
  | nil => rfl
  | cons it rest => simp [runLoop, h]

/-- The accounting invariant of a trace whose first iteration starts with
accumulator value `lag0`: every record balances its books
(`lagEnd + tick·nUpdates = lagStart + elapsed` — the accumulator grew
only by the elapsed sample and shrank only by whole ticks), ends below
one tick, and hands its `lagEnd` to the next record as its start. -/
def TraceInv (tick : ℕ) : ℕ → List IterResult → Prop
  | _, [] => True
  | lag0, r :: rs =>
    r.lagEnd + tick * r.nUpdates = lag0 + r.elapsed ∧ r.lagEnd < tick ∧
      TraceInv tick r.lagEnd rs

/-- The loop maintains the trace accounting invariant from any starting
accumulator value, for any callbacks. -/
theorem runLoop_traceInv (tick : ℕ) (u : Context → Context) (d : Context → ℚ → Context)
    (htick : 0 < tick) :
    ∀ (inputs : List IterInput) (c : Context) (lag : ℕ),
      TraceInv tick lag (runLoop tick u d c lag inputs).2.2 := by
  intro inputs
  induction inputs with
  | nil =>
    intro c lag
    simp [runLoop, TraceInv]
  | cons it rest ih =>
    intro c lag
    by_cases h : c.running = true
    · simp only [runLoop, if_pos h]
      obtain ⟨he, hn, hl, hl'⟩ := iteration_parts tick u d c lag it htick
      refine ⟨?_, ?_, ?_⟩
      · rw [he, hn, hl, Nat.mod_add_div]
      · rw [hl]; exact Nat.mod_lt _ htick
      · have hXY : (iteration tick u d c lag it).2.2.lagEnd
            = (iteration tick u d c lag it).2.1 := hl.trans hl'.symm
        rw [hXY]
        exact ih (iteration tick u d c lag it).1 (iteration tick u d c lag it).2.1
    · have hfalse : c.running = false := by
        cases hc : c.running
        · rfl
        · exact absurd hc h
      rw [runLoop_stopped tick u d c lag (it :: rest) hfalse]
      simp [TraceInv]

/-- Telescoping the accounting invariant: at every index `i`, the record's
final accumulator plus `tick` times the updates run so far equals the
starting accumulator plus the total elapsed time so far. -/
theorem traceInv_sums (tick : ℕ) :
    ∀ (T : List IterResult) (lag0 : ℕ), TraceInv tick lag0 T →
      ∀ i, i < T.length →
        (T.getD i ⟨0, 0, 0, 0⟩).lagEnd
            + tick * ((T.take (i + 1)).map IterResult.nUpdates).sum
          = lag0 + ((T.take (i + 1)).map IterResult.elapsed).sum ∧
        (T.getD i ⟨0, 0, 0, 0⟩).lagEnd < tick := by
  intro T
  induction T with
  | nil =>
    intro lag0 _ i hi
    exact absurd hi (by simp)
  | cons r rs ih =>
    intro lag0 hinv i hi
    obtain ⟨h1, h2, h3⟩ := hinv
    cases i with
    | zero =>
      simpa using ⟨h1, h2⟩
    | succ j =>
      have hj : j < rs.length := by simpa using Nat.lt_of_succ_lt_succ hi
      have hrec := ih r.lagEnd h3 j hj
      simp only [List.getD_cons_succ, List.take_succ_cons, List.map_cons, List.sum_cons]
      refine ⟨?_, hrec.2⟩
      rw [Nat.mul_add]
      linarith [h1, hrec.1]

/-- The default tick rate converts to 16,666,666 whole nanoseconds. -/
theorem f64_to_duration_default : f64_to_duration (1 / 60) = 16666666 := by
  norm_num [f64_to_duration]
  rfl

/-- A concrete context as produced by a successful default build: fresh
input state, not yet running, Escape quitting disabled, default tick
rate. -/
def defaultCtx : Context :=
  { input := InputContext.new
    running := false
    quit_on_escape := false
    tick_rate := 1 / 60 }

/-- C1: For every sequence of elapsed-time samples fed to the run loop,
the accumulator `lag` never goes negative (it is a `Duration`, i.e. a
natural number of nanoseconds, and the loop only subtracts `tick_rate`
under the `lag >= tick_rate` guard), increases only by the sampled
elapsed wall time and decreases only by whole multiples of `tick_rate`
(each trace record balances `lagEnd + tick_rate·nUpdates =
lagStart + elapsed`, which telescopes to the sum below), and at the end
of every iteration `i` equals the total elapsed time so far minus the
number of `update` invocations so far times `tick_rate`, a value in
`[0, tick_rate)` — stated additively over `ℕ` as
`lag_i + tick_rate · ΣnUpdates = Σelapsed` together with
`lag_i < tick_rate`. -/
theorem run_lag_accounting (u : Context → Context) (d : Context → ℚ → Context)
    (inputs : List IterInput) (c : Context)
    (htick : 0 < f64_to_duration c.tick_rate)
    (i : ℕ) (hi : i < ((run u d (.ok ()) inputs c).2.2).length) :
    (((run u d (.ok ()) inputs c).2.2).getD i ⟨0, 0, 0, 0⟩).lagEnd
        + f64_to_duration c.tick_rate
          * ((((run u d (.ok ()) inputs c).2.2).take (i + 1)).map IterResult.nUpdates).sum
      = ((((run u d (.ok ()) inputs c).2.2).take (i + 1)).map IterResult.elapsed).sum ∧
    (((run u d (.ok ()) inputs c).2.2).getD i ⟨0, 0, 0, 0⟩).lagEnd
      < f64_to_duration c.tick_rate := by
  have hinv := runLoop_traceInv (f64_to_duration c.tick_rate) u d htick inputs
    { c with running := true } 0
  have hsums := traceInv_sums (f64_to_duration c.tick_rate) _ 0 hinv i (by
    simpa only [run] using hi)
  simpa only [run, Nat.zero_add] using hsums

/-- C1 witness: two iterations at the default tick rate
(16,666,666 ns), elapsed samples 33.3 ms and 16.7 ms; at iteration
index 1 the books balance: `lagEnd + tick·(updates so far) = total
elapsed so far` and `lagEnd < tick`. -/
theorem run_lag_accounting_witness :
    (((run id (fun c _ => c) (.ok ())
          [⟨33300000, []⟩, ⟨16700000, []⟩] defaultCtx).2.2).getD 1 ⟨0, 0, 0, 0⟩).lagEnd
        + f64_to_duration defaultCtx.tick_rate
          * ((((run id (fun c _ => c) (.ok ())
              [⟨33300000, []⟩, ⟨16700000, []⟩] defaultCtx).2.2).take 2).map
              IterResult.nUpdates).sum
      = ((((run id (fun c _ => c) (.ok ())
            [⟨33300000, []⟩, ⟨16700000, []⟩] defaultCtx).2.2).take 2).map
            IterResult.elapsed).sum ∧
    (((run id (fun c _ => c) (.ok ())
          [⟨33300000, []⟩, ⟨16700000, []⟩] defaultCtx).2.2).getD 1 ⟨0, 0, 0, 0⟩).lagEnd
      < f64_to_duration defaultCtx.tick_rate :=
  run_lag_accounting id (fun c _ => c) [⟨33300000, []⟩, ⟨16700000, []⟩] defaultCtx
    (by rw [show defaultCtx.tick_rate = 1 / 60 from rfl, f64_to_duration_default]; norm_num)
    1
    (by
      simp only [run, show defaultCtx.tick_rate = 1 / 60 from rfl, f64_to_duration_default]
      decide)

/-- If the drained batch contains a quit event, the iteration still runs
to completion but its final context has `running = false`, provided the
callbacks never set `running` back to true (the `running` field is
private to the crate; the only public mutator is `quit`, which sets it
to false). -/
theorem iteration_running_false (tick : ℕ) (u : Context → Context)
    (d : Context → ℚ → Context)
    (hu : ∀ x, x.running = false → (u x).running = false)
    (hd : ∀ x q, x.running = false → (d x q).running = false)
    (c : Context) (lag : ℕ) (it : IterInput) (hq : Event.quit ∈ it.events) :
    (iteration tick u d c lag it).1.running = false := by
  simp only [iteration]
  apply hd
  exact simPhase_preserves tick u (fun x => x.running = false) hu _ _
    (processEvents_quit _ _ hq)

/-- C2: In every iteration of the run loop, after a quit event is
consumed (setting `running` to false) the loop still completes the
remaining phases of the current iteration — the pending simulation
updates (`(lag + elapsed) / tick_rate` of them), the draw call and
presentation (the iteration's trace record, including the `dt` handed to
`draw`, is emitted in full) — and then performs no further `update` or
`draw` calls: the trace of `it :: rest` is exactly the one record of the
current iteration, whatever `rest` holds, because `running` is checked
only between full iterations.  The callbacks are assumed not to set
`running` back to true, which the public API cannot do. -/
theorem quit_event_ends_loop (tick : ℕ) (u : Context → Context)
    (d : Context → ℚ → Context) (htick : 0 < tick)
    (hu : ∀ x, x.running = false → (u x).running = false)
    (hd : ∀ x q, x.running = false → (d x q).running = false)
    (c : Context) (lag : ℕ) (it : IterInput) (rest : List IterInput)
    (hrun : c.running = true) (hq : Event.quit ∈ it.events) :
    runLoop tick u d c lag (it :: rest)
        = ((iteration tick u d c lag it).1, (iteration tick u d c lag it).2.1,
            [(iteration tick u d c lag it).2.2]) ∧
    (iteration tick u d c lag it).1.running = false ∧
    (iteration tick u d c lag it).2.2.nUpdates = (lag + it.elapsed) / tick := by
  have hstop := iteration_running_false tick u d hu hd c lag it hq
  refine ⟨?_, hstop, (iteration_parts tick u d c lag it htick).2.1⟩
  simp only [runLoop, if_pos hrun]
  rw [runLoop_stopped tick u d (iteration tick u d c lag it).1
    (iteration tick u d c lag it).2.1 rest hstop]

/-- C2 witness: tick of 2 ns, a first iteration with 5 ns elapsed and a
quit event, a pending second input that is never entered; identity
callbacks. -/
theorem quit_event_ends_loop_witness :
    runLoop 2 id (fun c _ => c) { defaultCtx with running := true } 0
        (⟨5, [Event.quit]⟩ :: [⟨7, []⟩])
        = ((iteration 2 id (fun c _ => c) { defaultCtx with running := true } 0
              ⟨5, [Event.quit]⟩).1,
           (iteration 2 id (fun c _ => c) { defaultCtx with running := true } 0
              ⟨5, [Event.quit]⟩).2.1,
           [(iteration 2 id (fun c _ => c) { defaultCtx with running := true } 0
              ⟨5, [Event.quit]⟩).2.2]) ∧
    (iteration 2 id (fun c _ => c) { defaultCtx with running := true } 0
        ⟨5, [Event.quit]⟩).1.running = false ∧
    (iteration 2 id (fun c _ => c) { defaultCtx with running := true } 0
        ⟨5, [Event.quit]⟩).2.2.nUpdates = (0 + 5) / 2 :=
  quit_event_ends_loop 2 id (fun c _ => c) (by decide)
    (fun _ h => h) (fun _ _ h => h)
    { defaultCtx with running := true } 0 ⟨5, [Event.quit]⟩ [⟨7, []⟩]
    rfl (List.mem_cons_self _ _)

/-- The recorded `dt` is, definitionally, the remaining accumulator after
the simulation phase divided by the tick rate of the context `draw`
receives. -/
theorem iteration_dt_def (tick : ℕ) (u : Context → Context)
    (d : Context → ℚ → Context) (c : Context) (lag : ℕ) (it : IterInput) :
    (iteration tick u d c lag it).2.2.dt
      = duration_to_f64
          (simPhase tick u (processEvents { c with input := c.input.beginFrame }
            it.events) (lag + it.elapsed)).2.1
        / (simPhase tick u (processEvents { c with input := c.input.beginFrame }
            it.events) (lag + it.elapsed)).1.tick_rate := rfl

/-- C3: In every iteration, the interpolation fraction `dt` passed to the
draw callback equals the remaining `lag` divided by `tick_rate` after
all whole ticks are consumed (the recorded `lagEnd`, which is
`(lag + elapsed) mod tick`), lies in `[0, 1)`, and equals `0` when `lag`
was exactly consumed by whole ticks.  `tick` is the whole-nanosecond
conversion of the context's `tick_rate`, as bound once by `run`; the
update callback is assumed to leave `tick_rate` alone, which the public
API cannot change. -/
theorem draw_dt_fraction (tick : ℕ) (u : Context → Context)
    (d : Context → ℚ → Context)
    (hu : ∀ x, (u x).tick_rate = x.tick_rate)
    (c : Context) (lag : ℕ) (it : IterInput)
    (htick : tick = f64_to_duration c.tick_rate) (hpos : 0 < tick) :
    (iteration tick u d c lag it).2.2.dt
        = duration_to_f64 (iteration tick u d c lag it).2.2.lagEnd / c.tick_rate ∧
    (iteration tick u d c lag it).2.2.lagEnd = (lag + it.elapsed) % tick ∧
    0 ≤ (iteration tick u d c lag it).2.2.dt ∧
    (iteration tick u d c lag it).2.2.dt < 1 ∧
    ((iteration tick u d c lag it).2.2.lagEnd = 0 →
      (iteration tick u d c lag it).2.2.dt = 0) := by
  have hE : (processEvents { c with input := c.input.beginFrame } it.events).tick_rate
      = c.tick_rate :=
    processEvents_tick_rate { c with input := c.input.beginFrame } it.events
  have hsim : (simPhase tick u (processEvents { c with input := c.input.beginFrame }
      it.events) (lag + it.elapsed)).1.tick_rate = c.tick_rate :=
    simPhase_preserves tick u (fun x => x.tick_rate = c.tick_rate)
      (fun x hx => (hu x).trans hx) _ _ hE
  have hlag : (iteration tick u d c lag it).2.2.lagEnd = (lag + it.elapsed) % tick :=
    (iteration_parts tick u d c lag it hpos).2.2.1
  have hdt : (iteration tick u d c lag it).2.2.dt
      = duration_to_f64 ((lag + it.elapsed) % tick) / c.tick_rate := by
    rw [iteration_dt_def, hsim,
      (simPhase_spec tick u hpos (processEvents { c with input := c.input.beginFrame }
        it.events) (lag + it.elapsed)).1]
  -- positivity of the tick rate, extracted from `0 < tick`
  have hfl : (1 : ℤ) ≤ ⌊c.tick_rate * 1000000000⌋ := by
    rw [htick, f64_to_duration] at hpos
    omega
  have h9 : (0 : ℚ) < 1000000000 := by norm_num
  have htr : 0 < c.tick_rate := by
    by_contra hle
    push_neg at hle
    have hmul : c.tick_rate * 1000000000 ≤ 0 :=
      mul_nonpos_of_nonpos_of_nonneg hle (by norm_num)
    have : ⌊c.tick_rate * 1000000000⌋ ≤ 0 := by
      calc ⌊c.tick_rate * 1000000000⌋ ≤ ⌊(0 : ℚ)⌋ := Int.floor_le_floor hmul
        _ = 0 := Int.floor_zero
    omega
  have hmlt : (((lag + it.elapsed) % tick : ℕ) : ℚ) < c.tick_rate * 1000000000 := by
    have h1 : (lag + it.elapsed) % tick < tick := Nat.mod_lt _ hpos
    have h2 : (((lag + it.elapsed) % tick : ℕ) : ℚ) < (tick : ℚ) := by exact_mod_cast h1
    have h3 : ((tick : ℕ) : ℚ) ≤ c.tick_rate * 1000000000 := by
      rw [htick, f64_to_duration]
      have h4 : ((⌊c.tick_rate * 1000000000⌋.toNat : ℤ) : ℚ)
          ≤ c.tick_rate * 1000000000 := by
        rw [Int.toNat_of_nonneg (by omega)]
        exact Int.floor_le _
      exact_mod_cast h4
    linarith
  have hlt1 : duration_to_f64 ((lag + it.elapsed) % tick) / c.tick_rate < 1 := by
    rw [div_lt_one htr, duration_to_f64, div_lt_iff₀ h9]
    linarith
  have hnn : 0 ≤ duration_to_f64 ((lag + it.elapsed) % tick) / c.tick_rate :=
    div_nonneg (div_nonneg (Nat.cast_nonneg _) (le_of_lt h9)) (le_of_lt htr)
  refine ⟨?_, hlag, ?_, ?_, ?_⟩
  · rw [hdt, hlag]
  · rw [hdt]; exact hnn
  · rw [hdt]; exact hlt1
  · intro h0
    rw [hdt]
    rw [hlag] at h0
    rw [h0]
    simp [duration_to_f64]

/-- C3 witness: default tick rate (16,666,666 ns), one iteration with a
33 ms sample from an empty accumulator; the recorded `dt` is the
leftover lag over the tick rate, inside `[0, 1)`. -/
theorem draw_dt_fraction_witness :
    (iteration 16666666 id (fun c _ => c) defaultCtx 0 ⟨33000000, []⟩).2.2.dt
        = duration_to_f64
            (iteration 16666666 id (fun c _ => c) defaultCtx 0
              ⟨33000000, []⟩).2.2.lagEnd / defaultCtx.tick_rate ∧
    (iteration 16666666 id (fun c _ => c) defaultCtx 0
        ⟨33000000, []⟩).2.2.lagEnd = (0 + 33000000) % 16666666 ∧
    0 ≤ (iteration 16666666 id (fun c _ => c) defaultCtx 0 ⟨33000000, []⟩).2.2.dt ∧
    (iteration 16666666 id (fun c _ => c) defaultCtx 0 ⟨33000000, []⟩).2.2.dt < 1 ∧
    ((iteration 16666666 id (fun c _ => c) defaultCtx 0
        ⟨33000000, []⟩).2.2.lagEnd = 0 →
      (iteration 16666666 id (fun c _ => c) defaultCtx 0 ⟨33000000, []⟩).2.2.dt = 0) :=
  draw_dt_fraction 16666666 id (fun c _ => c) (fun _ => rfl) defaultCtx 0
    ⟨33000000, []⟩
    (by rw [show defaultCtx.tick_rate = 1 / 60 from rfl, f64_to_duration_default])
    (by norm_num)

/-- C4: At the start of every loop iteration, before any new events are
applied, the previous key-state buffer is set to a value copy of the
current buffer: whatever events the iteration then applies — key events
included, since they mutate only the `current` buffer — the `previous`
buffer still equals the pre-iteration `current` buffer (no aliasing);
and an iteration that applies zero key events leaves
`previous == current` for all keys. -/
theorem begin_frame_snapshot (c : Context) (events : List Event) :
    (processEvents { c with input := c.input.beginFrame }
        events).input.previous_key_state = c.input.current_key_state ∧
    ((∀ e ∈ events, e.isKeyEvent = false) →
      (processEvents { c with input := c.input.beginFrame }
          events).input.previous_key_state
        = (processEvents { c with input := c.input.beginFrame }
            events).input.current_key_state) := by
  have h1 : (processEvents { c with input := c.input.beginFrame }
      events).input.previous_key_state = c.input.current_key_state := by
    rw [processEvents_previous]
    rfl
  refine ⟨h1, fun h => ?_⟩
  rw [h1, processEvents_current_of_no_key _ _ h]
  rfl

/-- C4 witness: an iteration whose drained batch has a quit event and a
mouse event but zero key events, on a context holding a pressed key. -/
theorem begin_frame_snapshot_witness :
    (processEvents { defaultCtx with input := defaultCtx.input.beginFrame }
        [Event.quit, Event.mouseMotion 3 4]).input.previous_key_state
      = defaultCtx.input.current_key_state ∧
    (processEvents { defaultCtx with input := defaultCtx.input.beginFrame }
        [Event.quit, Event.mouseMotion 3 4]).input.previous_key_state
      = (processEvents { defaultCtx with input := defaultCtx.input.beginFrame }
          [Event.quit, Event.mouseMotion 3 4]).input.current_key_state :=
  ⟨(begin_frame_snapshot defaultCtx [Event.quit, Event.mouseMotion 3 4]).1,
   (begin_frame_snapshot defaultCtx [Event.quit, Event.mouseMotion 3 4]).2
     (by decide)⟩

/-- C5: for every key `K` and any starting input state: after setting `K`
down, taking a frame snapshot (`previous := current`), and setting `K`
down again, the "was just pressed" query for `K` (current ∧ ¬previous) is
false while the "is down" query (current) is true. -/
theorem held_key_not_just_pressed (s : InputContext) (K : Key) :
    (((s.set_key K true).beginFrame).set_key K true).is_key_pressed K = false ∧
    (((s.set_key K true).beginFrame).set_key K true).is_key_down K = true := by
  simp [InputContext.set_key, InputContext.beginFrame, InputContext.is_key_pressed,
    InputContext.is_key_down, Function.update_same]

/-- C6: processing a key-down event for the Escape key sets
`running = false` exactly when `quit_on_escape` is true, leaves `running`
unchanged when it is false, and in both cases records the Escape key as
pressed in the current key state. -/
theorem escape_key_down (c : Context) :
    (c.quit_on_escape = true →
      (handleEvent c (.keyDown (some Key.escapeCode))).running = false) ∧
    (c.quit_on_escape = false →
      (handleEvent c (.keyDown (some Key.escapeCode))).running = c.running) ∧
    (handleEvent c (.keyDown (some Key.escapeCode))).input.current_key_state
      Key.escapeCode = true := by
  refine ⟨fun hq => ?_, fun hq => ?_, ?_⟩
  · simp [handleEvent, hq]
  · simp [handleEvent, hq]
  · simp only [handleEvent]
    split <;> simp [InputContext.set_key, Function.update_same]

/-- C6 witness: with `quit_on_escape = true` the Escape key-down stops
the loop; with `quit_on_escape = false` it leaves `running` untouched;
both record the key as down. -/
theorem escape_key_down_witness :
    (handleEvent { defaultCtx with quit_on_escape := true }
        (.keyDown (some Key.escapeCode))).running = false ∧
    (handleEvent defaultCtx (.keyDown (some Key.escapeCode))).running
      = defaultCtx.running ∧
    (handleEvent defaultCtx
        (.keyDown (some Key.escapeCode))).input.current_key_state
      Key.escapeCode = true :=
  ⟨(escape_key_down { defaultCtx with quit_on_escape := true }).1 rfl,
   (escape_key_down defaultCtx).2.1 rfl,
   (escape_key_down defaultCtx).2.2⟩

/-- C7: recording any key identifier carried by a key-down or key-up
event is total and never a failure: the key state is a total mapping
(modelled from the spec for the missing `input` module), so every
keycode value — including values like SDL's extended keycodes that far
exceed any small array — has a slot; the event sets exactly that slot
and leaves every other key untouched. -/
theorem key_recording_total (c : Context) (k : Key) :
    (handleEvent c (.keyDown (some k))).input.current_key_state k = true ∧
    (handleEvent c (.keyUp (some k))).input.current_key_state k = false ∧
    (∀ j : Key, j ≠ k →
      (handleEvent c (.keyDown (some k))).input.current_key_state j
          = c.input.current_key_state j ∧
      (handleEvent c (.keyUp (some k))).input.current_key_state j
          = c.input.current_key_state j) := by
  refine ⟨?_, ?_, fun j hj => ⟨?_, ?_⟩⟩
  · simp only [handleEvent]
    split <;> simp [InputContext.set_key, Function.update_same]
  · simp [handleEvent, InputContext.set_key, Function.update_same]
  · simp only [handleEvent]
    split <;> simp [InputContext.set_key, Function.update_noteq hj]
  · simp [handleEvent, InputContext.set_key, Function.update_noteq hj]

/-- C7 witness: the SDL keycode of the Up arrow (1073741906, far beyond
any 322-slot array) is recorded without failure, and key 0 is left
alone. -/
theorem key_recording_total_witness :
    (handleEvent defaultCtx
        (.keyDown (some (1073741906 : ℕ)))).input.current_key_state
      (1073741906 : ℕ) = true ∧
    (handleEvent defaultCtx
        (.keyUp (some (1073741906 : ℕ)))).input.current_key_state
      (1073741906 : ℕ) = false ∧
    (handleEvent defaultCtx
        (.keyDown (some (1073741906 : ℕ)))).input.current_key_state
      (0 : ℕ) = defaultCtx.input.current_key_state (0 : ℕ) :=
  ⟨(key_recording_total defaultCtx (1073741906 : ℕ)).1,
   (key_recording_total defaultCtx (1073741906 : ℕ)).2.1,
   ((key_recording_total defaultCtx (1073741906 : ℕ)).2.2 (0 : ℕ)
     (by decide)).1⟩

/-- Whether an initialization outcome succeeded. -/
def exceptOk {ε α : Type} : Except ε α → Bool
  | .ok _ => true
  | .error _ => false

/-- C9: whenever `ContextBuilder::build` succeeds, the returned `Context`
has `running = false` (the loop has not started) and
`tick_rate = 1/60`; when any platform or window initialization step
fails, `build` returns an error — and, `Except` being exclusive, no
`Context` is produced. -/
theorem build_postcondition (b : ContextBuilder) (p : Platform) :
    (∀ c, b.build p = Except.ok c → c.running = false ∧ c.tick_rate = 1 / 60) ∧
    ((exceptOk p.sdl_init = false ∨ exceptOk p.video_init = false ∨
        exceptOk p.window_build = false ∨ exceptOk p.gl_new = false) →
      ∃ err, b.build p = Except.error err) := by
  obtain ⟨s, v, w, g⟩ := p
  constructor
  · intro c hc
    cases s with
    | error e => simp [ContextBuilder.build] at hc
    | ok su =>
      cases v with
      | error e => simp [ContextBuilder.build] at hc
      | ok vu =>
        cases w with
        | error e => simp [ContextBuilder.build] at hc
        | ok wu =>
          cases g with
          | error e => simp [ContextBuilder.build] at hc
          | ok gu =>
            simp only [ContextBuilder.build, Except.ok.injEq] at hc
            rw [← hc]
            exact ⟨rfl, rfl⟩
  · intro hbad
    cases s with
    | error e => exact ⟨TetraError.Sdl e, by simp [ContextBuilder.build]⟩
    | ok su =>
      cases v with
      | error e => exact ⟨TetraError.Sdl e, by simp [ContextBuilder.build]⟩
      | ok vu =>
        cases w with
        | error e => exact ⟨TetraError.Sdl e, by simp [ContextBuilder.build]⟩
        | ok wu =>
          cases g with
          | error e => exact ⟨e, by simp [ContextBuilder.build]⟩
          | ok gu =>
            rcases hbad with h | h | h | h <;> simp [exceptOk] at h

/-- C9 witness: a fully successful default build yields `running = false`
and `tick_rate = 1/60`; a build whose SDL initialization fails yields an
error. -/
theorem build_postcondition_witness :
    (defaultCtx.running = false ∧ defaultCtx.tick_rate = 1 / 60) ∧
    (∃ err, ContextBuilder.new.build
        ⟨.error "no video device", .ok (), .ok (), .ok ()⟩ = Except.error err) :=
  ⟨(build_postcondition ContextBuilder.new ⟨.ok (), .ok (), .ok (), .ok ()⟩).1
      defaultCtx rfl,
   (build_postcondition ContextBuilder.new
      ⟨.error "no video device", .ok (), .ok (), .ok ()⟩).2 (Or.inl rfl)⟩

/-- C10: if acquiring the platform event pump at the start of `run`
fails, `run` returns that error (wrapped as `TetraError::Sdl`) before
any state change: the context comes back exactly as it went in — so
`running` is still false if it was, and the input state is untouched —
and the trace is empty: no `update` or `draw` callback was invoked. -/
theorem run_pump_error_atomic (u : Context → Context) (d : Context → ℚ → Context)
    (e : String) (inputs : List IterInput) (c : Context) :
    run u d (.error e) inputs c = (.error (.Sdl e), c, []) := rfl

/-- The trace of the spec's concrete scenario: default tick rate
(`1/60` s, i.e. 16,666,666 whole nanoseconds), three iterations with
elapsed samples 0.033 s, 0 s, 0 s and no input events, identity
callbacks, from a freshly built context. -/
def scenarioTrace : List IterResult :=
  (run id (fun c _ => c) (.ok ())
    [⟨33000000, []⟩, ⟨0, []⟩, ⟨0, []⟩] defaultCtx).2.2

/-- C8: in the scenario above, iteration 1 invokes `update` exactly once
and leaves `lag = 16,333,334` ns (≈ 0.0163 s, the remainder of one tick),
iterations 2 and 3 invoke `update` zero times and leave `lag` unchanged,
and `dt` — equal to `0.98000004` throughout — stays in `(0, 1)` and is
identical across the two idle iterations: it changed only with the
clock-read contribution of iteration 1, never through idle iterations
alone. -/
theorem scenario_one_update_then_idle :
    scenarioTrace.map IterResult.nUpdates = [1, 0, 0] ∧
    scenarioTrace.map IterResult.lagEnd = [16333334, 16333334, 16333334] ∧
    (scenarioTrace.getD 0 ⟨0, 0, 0, 0⟩).dt = 24500001 / 25000000 ∧
    (scenarioTrace.getD 1 ⟨0, 0, 0, 0⟩).dt = (scenarioTrace.getD 0 ⟨0, 0, 0, 0⟩).dt ∧
    (scenarioTrace.getD 2 ⟨0, 0, 0, 0⟩).dt = (scenarioTrace.getD 0 ⟨0, 0, 0, 0⟩).dt ∧
    0 < (scenarioTrace.getD 0 ⟨0, 0, 0, 0⟩).dt ∧
    (scenarioTrace.getD 0 ⟨0, 0, 0, 0⟩).dt < 1 := by
  have hrw : scenarioTrace
      = (runLoop 16666666 id (fun c _ => c) { defaultCtx with running := true } 0
          [⟨33000000, []⟩, ⟨0, []⟩, ⟨0, []⟩]).2.2 := by
    simp only [scenarioTrace, run, show defaultCtx.tick_rate = 1 / 60 from rfl,
      f64_to_duration_default]
  have hdt0 : (scenarioTrace.getD 0 ⟨0, 0, 0, 0⟩).dt
      = (16333334 : ℚ) / 1000000000 / (1 / 60) := by
    rw [hrw]; rfl
  have hdt1 : (scenarioTrace.getD 1 ⟨0, 0, 0, 0⟩).dt
      = (16333334 : ℚ) / 1000000000 / (1 / 60) := by
    rw [hrw]; rfl
  have hdt2 : (scenarioTrace.getD 2 ⟨0, 0, 0, 0⟩).dt
      = (16333334 : ℚ) / 1000000000 / (1 / 60) := by
    rw [hrw]; rfl
  refine ⟨?_, ?_, ?_, ?_, ?_, ?_, ?_⟩
  · rw [hrw]; decide
  · rw [hrw]; decide
  · rw [hdt0]; norm_num
  · rw [hdt0, hdt1]
  · rw [hdt0, hdt2]
  · rw [hdt0]; norm_num
  · rw [hdt0]; norm_num
